import Mathlib

/-!
Shallow embedding of the process I/O supervision and file coordination layer
of the multiagent-chat repository (src/orchestrator.py, src/mock_agent.py).

Raw terminal text is modelled at the byte level: a chunk is a `List Nat`
of Latin-1 code points, which matches the Python source where chunks are
decoded permissively and processed character by character.
-/

namespace Orchestrator

/-- Python str.isprintable restricted to the Latin-1 range: printable means
ASCII 0x20..0x7E, or 0xA1..0xFF except the soft hyphen 0xAD.  The bytes
0x00..0x1F, 0x7F..0xA0 and 0xAD are category Cc, Zs or Cf and are not
printable. -/
def pyIsPrintable (b : Nat) : Bool :=
  (0x20 ≤ b && b ≤ 0x7E) || (0xA1 ≤ b && b ≤ 0xFF && b != 0xAD)

/-- Python str whitespace (stripped by str.strip and truthiness of strip)
in the Latin-1 range: tab, the five ASCII line/space controls, the three
information separators 0x1C..0x1E, space, next-line 0x85 and no-break
space 0xA0. -/
def pyIsSpace (b : Nat) : Bool :=
  b == 0x09 || b == 0x0A || b == 0x0B || b == 0x0C || b == 0x0D ||
  b == 0x1C || b == 0x1D || b == 0x1E || b == 0x20 || b == 0x85 || b == 0xA0

/-- Line boundaries recognised by Python str.splitlines in the Latin-1
range: LF, VT, FF, CR, FS, GS, RS and NEL. -/
def isLineBoundary (b : Nat) : Bool :=
  b == 0x0A || b == 0x0B || b == 0x0C || b == 0x0D ||
  b == 0x1C || b == 0x1D || b == 0x1E || b == 0x85

/-- Parameter bytes of a CSI sequence: the regex class [0-?], 0x30..0x3F. -/
def isParamByte (b : Nat) : Bool := 0x30 ≤ b && b ≤ 0x3F

/-- Intermediate bytes of a CSI sequence: the regex range 0x20..0x2F. -/
def isInterByte (b : Nat) : Bool := 0x20 ≤ b && b ≤ 0x2F

/-- Final byte of a CSI sequence: the regex class [@-~], 0x40..0x7E. -/
def isFinalByte (b : Nat) : Bool := 0x40 ≤ b && b ≤ 0x7E

/-- Two-byte escape second byte: the regex class [@-_], 0x40..0x5F. -/
def isEscLetter (b : Nat) : Bool := 0x40 ≤ b && b ≤ 0x5F

/-- Match the tail of the CSI alternative of ANSI_ESCAPE_RE after the two
bytes ESC [ have been consumed: zero or more parameter bytes, zero or more
intermediate bytes, one final byte.  Returns the remaining input on
success.  The three byte classes are pairwise disjoint, so the greedy
match of the regex engine is exactly this maximal munch. -/
def matchCSITail (s : List Nat) : Option (List Nat) :=
  match (s.dropWhile isParamByte).dropWhile isInterByte with
  | [] => none
  | b :: rest => if isFinalByte b then some rest else none

/-- One left-to-right non-overlapping substitution pass of
ANSI_ESCAPE_RE = ESC [ param* inter* final | ESC letter, replacing every
match with the empty string, as re.sub does.  Both alternatives start
with ESC, so positions not holding ESC are copied through.  At an ESC
followed by a left bracket the CSI alternative is tried first; if it
fails, the two-byte alternative still matches because the left bracket
is in the range 0x40..0x5F.  Fuel-indexed so that the recursion is
structural; every step consumes at least one input byte, so fuel equal
to the input length never runs out. -/
def ansiStripF : Nat → List Nat → List Nat
  | 0, s => s
  | _ + 1, [] => []
  | fuel + 1, 27 :: 91 :: rest =>
    match matchCSITail rest with
    | some rest2 => ansiStripF fuel rest2
    | none => ansiStripF fuel rest
  | fuel + 1, 27 :: b :: rest =>
    if isEscLetter b then ansiStripF fuel rest
    else 27 :: ansiStripF fuel (b :: rest)
  | _ + 1, [27] => [27]
  | fuel + 1, b :: rest => b :: ansiStripF fuel rest

/-- The substitution pass at its natural fuel. -/
def ansiStrip (s : List Nat) : List Nat := ansiStripF s.length s

/-- Cons a byte onto the first segment of a segment list (helper for the
splitlines model). -/
def consHead (b : Nat) : List (List Nat) → List (List Nat)
  | [] => [[b]]
  | l :: ls => (b :: l) :: ls

/-- Split a byte string at every line boundary, a CR LF pair counting as a
single boundary; n boundaries yield n+1 segments. -/
def splitSegs : List Nat → List (List Nat)
  | [] => [[]]
  | 13 :: 10 :: rest => [] :: splitSegs rest
  | b :: rest =>
    if isLineBoundary b then [] :: splitSegs rest
    else consHead b (splitSegs rest)

/-- Python str.splitlines: split at every line boundary and drop the final
segment when it is empty, so a trailing boundary produces no empty last
line and the empty string produces no lines at all. -/
def pySplitlines (s : List Nat) : List (List Nat) :=
  let segs := splitSegs s
  if segs.getLast? = some [] then segs.dropLast else segs

/-- MultiAgentOrchestrator._sanitize_output: normalize CR to LF, strip
ANSI escape sequences, keep only printable bytes plus LF and tab, split
into lines, and replace every line that strips to nothing by a single
space.  The final comprehension of the source filters out None lines,
which keeps everything. -/
def sanitize_output (text : List Nat) : List (List Nat) :=
  let cleaned0 := text.map (fun b => if b == 13 then 10 else b)
  let cleaned1 := ansiStrip cleaned0
  let cleaned2 := cleaned1.filter (fun b => pyIsPrintable b || b == 10 || b == 9)
  let lines := (pySplitlines cleaned2).map
    (fun l => if l.all (fun b => pyIsSpace b) then [0x20] else l)
  lines.filter (fun _ => true)

/-- One agent-side state of the Popen object held by an AgentProcess, as
far as send_input and stop observe it: whether the stdin attribute is a
pipe (subprocess.PIPE was requested; in pty mode it is None), whether
that pipe has been closed, the data written to it, and whether the child
is still alive. -/
structure ProcInfo where
  stdinPresent : Bool
  stdinClosed : Bool
  stdinWritten : List String
  alive : Bool
deriving DecidableEq

/-- The mutable state of one AgentProcess.  master_fd is the pseudo
terminal master descriptor (None when absent or cleared by stop);
masterOpen records whether that OS descriptor is still open;
masterWritten and sideLog record the data written to the master and to
the per-session log file; output_buffer and output_queue are the two
text buffers of the source. -/
structure AgentState where
  use_pty : Bool
  master_fd : Option Nat
  masterOpen : Bool
  masterWritten : List String
  process : Option ProcInfo
  output_buffer : List String
  output_queue : List String
  sideLog : List String
  running : Bool
deriving DecidableEq

/-- The internal error record produced when the pty write raises. -/
def pty_send_error_msg : String := "Error sending input (pty): [Errno 9] Bad file descriptor\n"

/-- The internal error record produced when the pipe write raises, for
example because stdin was closed by an earlier send. -/
def pipe_send_error_msg : String := "Error sending input: I/O operation on closed file.\n"

/-- AgentProcess.send_input.  In pty mode with a master descriptor the
text plus newline is written to the master and the descriptor is never
closed; a failing write appends an error record to output_buffer and
output_queue and raises nothing.  Otherwise, when a process with a stdin
pipe exists, the text plus newline is written, and the pipe is closed
when the close flag is set; writing to an already closed pipe appends an
error record instead.  When no process or no stdin pipe exists the call
does nothing. -/
def send_input (st : AgentState) (text : String) (close : Bool) : AgentState :=
  if st.use_pty && st.master_fd.isSome then
    if st.masterOpen then
      { st with masterWritten := st.masterWritten ++ [text ++ "\n"] }
    else
      { st with output_buffer := st.output_buffer ++ [pty_send_error_msg],
                output_queue := st.output_queue ++ [pty_send_error_msg] }
  else
    match st.process with
    | none => st
    | some p =>
      if p.stdinPresent then
        if p.stdinClosed then
          { st with output_buffer := st.output_buffer ++ [pipe_send_error_msg],
                    output_queue := st.output_queue ++ [pipe_send_error_msg] }
        else
          { st with process := some { p with
              stdinWritten := p.stdinWritten ++ [text ++ "\n"],
              stdinClosed := close } }
      else st

/-- AgentProcess._enqueue_output: append the chunk to output_queue and
output_buffer, then try to mirror it to the per-session side log file;
a failing log write is swallowed by the bare except and changes nothing
else.  The logWriteFails flag models whether the filesystem write
raises. -/
def enqueue_output (st : AgentState) (logWriteFails : Bool) (text : String) : AgentState :=
  let st1 := { st with output_queue := st.output_queue ++ [text],
                       output_buffer := st.output_buffer ++ [text] }
  if logWriteFails then st1 else { st1 with sideLog := st1.sideLog ++ [text] }

/-- AgentProcess.read_output: pop and return the oldest queued chunk, or
return the empty string when the queue is empty.  Total, hence it never
blocks nor raises. -/
def read_output (st : AgentState) : AgentState × String :=
  match st.output_queue with
  | [] => (st, "")
  | x :: rest => ({ st with output_queue := rest }, x)

/-- AgentProcess.stop: when a process exists, clear the running flag and
terminate the child (terminating an already dead child is harmless);
then, when a master descriptor is present, close it and clear the
field. -/
def stop (st : AgentState) : AgentState :=
  let st1 :=
    match st.process with
    | none => st
    | some p => { st with running := false, process := some { p with alive := false } }
  match st1.master_fd with
  | none => st1
  | some _ => { st1 with master_fd := none, masterOpen := false }

/-- A sequence of send_input calls, each a text plus a close flag. -/
def sendMany (st : AgentState) (calls : List (String × Bool)) : AgentState :=
  calls.foldl (fun s c => send_input s c.1 c.2) st

/-- Successive read_output calls, n of them, threading the state and
collecting the returned chunks in order. -/
def reads : AgentState → Nat → List String
  | _, 0 => []
  | st, n + 1 => (read_output st).2 :: reads (read_output st).1 n

/-- A pty-mode session with an open master descriptor and no output yet. -/
def ptyDemo : AgentState :=
  { use_pty := true, master_fd := some 5, masterOpen := true, masterWritten := [],
    process := none, output_buffer := [], output_queue := [], sideLog := [],
    running := true }

/-- A pipe-mode session with a started process whose stdin pipe is open. -/
def pipeDemo : AgentState :=
  { use_pty := false, master_fd := none, masterOpen := false, masterWritten := [],
    process := some { stdinPresent := true, stdinClosed := false,
                      stdinWritten := [], alive := true },
    output_buffer := [], output_queue := [], sideLog := [], running := true }

/-- A pipe-mode session whose process was never started. -/
def idleDemo : AgentState :=
  { use_pty := false, master_fd := none, masterOpen := false, masterWritten := [],
    process := none, output_buffer := [], output_queue := [], sideLog := [],
    running := false }

/-- MultiAgentOrchestrator.setup_workspace writes the empty string to the
coordination file CHAT.md, truncating it. -/
def setup_workspace_chat : String := ""

/-- MultiAgentOrchestrator.send_user_message: strip the input text, do
nothing when nothing remains, otherwise open the coordination file in
append mode and add one formatted, newline-delimited message.  The file
content is an Option, none meaning the file does not exist; appending
creates it. -/
def send_user_message (chat : Option String) (timestamp message : String) : Option String :=
  if message.trim = "" then chat
  else some (chat.getD "" ++ ("\n[User @ " ++ timestamp ++ "]: " ++ message.trim ++ "\n"))

end Orchestrator

namespace MockAgent

/-- MockAgent.append_to_chat: open CHAT.md in append mode (creating it if
missing) and write one formatted, newline-delimited message. -/
def append_to_chat (chat : Option String) (name message : String) : Option String :=
  some (chat.getD "" ++ ("\n[" ++ name ++ "]: " ++ message ++ "\n"))

/-- MockAgent.read_chat: the whole current content, or the empty string
when the file does not exist. -/
def read_chat (chat : Option String) : String := chat.getD ""

end MockAgent

namespace Orchestrator

/-- The writes the core performs on the coordination file after session
start: a user message relayed by the hub, or a mock-agent append. -/
inductive ChatOp where
  | user (timestamp message : String)
  | agentMsg (name message : String)

/-- Apply one coordination-file write. -/
def applyChatOp (chat : Option String) : ChatOp → Option String
  | .user ts msg => send_user_message chat ts msg
  | .agentMsg n msg => MockAgent.append_to_chat chat n msg

end Orchestrator

namespace Orchestrator

example : sanitize_output [27, 91, 51, 49, 109, 104, 105] = [[104, 105]] := by decide

example : sanitize_output [104, 10, 10, 105] = [[104], [32], [105]] := by decide

example : sanitize_output [104, 105, 10] = [[104, 105]] := by decide

example : ansiStrip [27, 91, 27, 65] = [] := by decide

end Orchestrator

namespace Orchestrator

theorem consHead_mem {b : Nat} {L : List (List Nat)} {l : List Nat}
    (hl : l ∈ consHead b L) {x : Nat} (hx : x ∈ l) :
    x = b ∨ ∃ l2 ∈ L, x ∈ l2 := by
  cases L with
  | nil =>
    simp [consHead] at hl
    subst hl
    simp at hx
    exact Or.inl hx
  | cons l0 ls =>
    simp [consHead] at hl
    rcases hl with rfl | hmem
    · rcases List.mem_cons.mp hx with rfl | hx2
      · exact Or.inl rfl
      · exact Or.inr ⟨l0, by simp, hx2⟩
    · exact Or.inr ⟨l, by simp [hmem], hx⟩

theorem splitSegs_mem (s : List Nat) :
    ∀ l ∈ splitSegs s, ∀ b ∈ l, b ∈ s ∧ isLineBoundary b = false := by
  induction s using splitSegs.induct with
  | case1 =>
    intro l hl b hb
    simp [splitSegs] at hl
    subst hl
    simp at hb
  | case2 rest ih =>
    intro l hl b hb
    simp only [splitSegs, List.mem_cons] at hl
    rcases hl with rfl | hl
    · simp at hb
    · have := ih l hl b hb
      exact ⟨by simp [this.1], this.2⟩
  | case3 b0 rest hne hbd ih =>
    intro l hl x hx
    rw [splitSegs.eq_def] at hl
    split at hl
    · simp at hl
      subst hl; simp at hx
    · rename_i x2 heq
      injection heq with h1 h2
      exact (hne x2 h1 h2).elim
    · rename_i x1 b1 rest1 hne1 heq
      injection heq with hb hr
      subst hb; subst hr
      rw [if_pos hbd] at hl
      rcases List.mem_cons.mp hl with rfl | hl
      · simp at hx
      · have := ih l hl x hx
        exact ⟨by simp [this.1], this.2⟩
  | case4 b0 rest hne hbd ih =>
    intro l hl x hx
    rw [splitSegs.eq_def] at hl
    split at hl
    · simp at hl
      subst hl; simp at hx
    · rename_i x2 heq
      injection heq with h1 h2
      exact (hne x2 h1 h2).elim
    · rename_i x1 b1 rest1 hne1 heq
      injection heq with hb hr
      subst hb; subst hr
      rw [if_neg hbd] at hl
      rcases consHead_mem hl hx with rfl | ⟨l2, hl2, hx2⟩
      · exact ⟨by simp, by simpa using hbd⟩
      · have := ih l2 hl2 x hx2
        exact ⟨by simp [this.1], this.2⟩

theorem pySplitlines_subset {s l : List Nat} (h : l ∈ pySplitlines s) :
    l ∈ splitSegs s := by
  simp only [pySplitlines] at h
  split at h
  · exact (List.dropLast_sublist _).subset h
  · exact h

/-- Claim C1: every line returned by the output sanitizer contains no ESC
(0x1B) byte and no non-printable byte other than horizontal tab, for
every input, in particular for inputs containing ANSI cursor or color
escape sequences. -/
theorem sanitize_output_clean (text line : List Nat) (b : Nat)
    (hl : line ∈ sanitize_output text) (hb : b ∈ line) :
    b ≠ 27 ∧ (pyIsPrintable b = true ∨ b = 9) := by
  have hl2 : line ∈ (pySplitlines
      ((ansiStrip (text.map fun b => if b == 13 then 10 else b)).filter
        (fun b => pyIsPrintable b || b == 10 || b == 9))).map
      (fun l => if l.all (fun b => pyIsSpace b) then [0x20] else l) := by
    simpa [sanitize_output] using hl
  obtain ⟨l, hlm, hEq⟩ := List.mem_map.mp hl2
  by_cases hall : l.all (fun b => pyIsSpace b) = true
  · rw [if_pos hall] at hEq
    subst hEq
    have hb32 : b = 32 := by simpa using hb
    subst hb32
    exact ⟨by decide, Or.inl (by decide)⟩
  · rw [if_neg hall] at hEq
    subst hEq
    obtain ⟨hmem, hnb⟩ := splitSegs_mem _ l (pySplitlines_subset hlm) b hb
    have hp : (pyIsPrintable b || b == 10 || b == 9) = true :=
      (List.mem_filter.mp hmem).2
    have h10 : b ≠ 10 := by
      intro h; subst h; simp [isLineBoundary] at hnb
    rcases (by simpa using hp : (pyIsPrintable b = true ∨ b = 10) ∨ b = 9) with (h | h) | h
    · exact ⟨fun he => by subst he; exact absurd h (by decide), Or.inl h⟩
    · exact absurd h h10
    · exact ⟨fun he => by subst he; exact absurd h (by decide), Or.inr h⟩

theorem sanitize_output_clean_witness :
    (104 : Nat) ≠ 27 ∧ (pyIsPrintable 104 = true ∨ (104 : Nat) = 9) :=
  sanitize_output_clean [27, 91, 51, 49, 109, 104, 105] [104, 105] 104
    (by decide) (by decide)

/-- Claim C9: the sanitizer normalizes carriage returns, strips ANSI
escapes, drops non-printable bytes except line breaks and tabs, splits
into lines, and replaces every line that strips to nothing by a single
space, so no returned line is the zero-width empty string. -/
theorem sanitize_output_no_empty_line (text line : List Nat)
    (hl : line ∈ sanitize_output text) : line ≠ [] := by
  have hl2 : line ∈ (pySplitlines
      ((ansiStrip (text.map fun b => if b == 13 then 10 else b)).filter
        (fun b => pyIsPrintable b || b == 10 || b == 9))).map
      (fun l => if l.all (fun b => pyIsSpace b) then [0x20] else l) := by
    simpa [sanitize_output] using hl
  obtain ⟨l, hlm, hEq⟩ := List.mem_map.mp hl2
  by_cases hall : l.all (fun b => pyIsSpace b) = true
  · rw [if_pos hall] at hEq
    subst hEq
    simp
  · rw [if_neg hall] at hEq
    subst hEq
    intro hnil
    exact hall (by simp [hnil])

theorem sanitize_output_no_empty_line_witness : ([104, 105] : List Nat) ≠ [] :=
  sanitize_output_no_empty_line [104, 105, 10] [104, 105] (by decide)

theorem send_input_frame (st : AgentState) (t : String) (c : Bool) :
    (send_input st t c).use_pty = st.use_pty ∧
    (send_input st t c).master_fd = st.master_fd ∧
    (send_input st t c).masterOpen = st.masterOpen := by
  unfold send_input
  split
  · split <;> exact ⟨rfl, rfl, rfl⟩
  · cases st.process with
    | none => exact ⟨rfl, rfl, rfl⟩
    | some p =>
      by_cases h1 : p.stdinPresent = true
      · by_cases h2 : p.stdinClosed = true
        · simp [h1, h2]
        · simp [h1, h2]
      · simp [h1]

/-- Claim C3: in pseudo-terminal mode with an open master descriptor, no
sequence of send_input calls ever closes or changes the master
descriptor, whatever the close flags say. -/
theorem pty_send_never_closes (st : AgentState) (fd : Nat) (calls : List (String × Bool))
    (h1 : st.use_pty = true) (h2 : st.master_fd = some fd) (h3 : st.masterOpen = true) :
    (sendMany st calls).master_fd = some fd ∧ (sendMany st calls).masterOpen = true := by
  induction calls generalizing st with
  | nil => exact ⟨h2, h3⟩
  | cons hd tl ih =>
    have hf := send_input_frame st hd.1 hd.2
    simp only [sendMany, List.foldl_cons]
    exact ih (send_input st hd.1 hd.2)
      (hf.1.trans h1) (hf.2.1.trans h2) (hf.2.2.trans h3)

theorem pty_send_never_closes_witness :
    (sendMany ptyDemo [("x", true), ("y", false)]).master_fd = some 5 ∧
    (sendMany ptyDemo [("x", true), ("y", false)]).masterOpen = true :=
  pty_send_never_closes ptyDemo 5 [("x", true), ("y", false)] rfl rfl rfl

/-- Claim C4: in pipe mode with a started process and an open stdin pipe,
send_input with the close flag writes the text plus a line terminator
and closes the pipe, and any subsequent send_input fails gracefully by
appending an error record to the output buffer and the output queue
instead of raising. -/
theorem pipe_close_then_graceful (st : AgentState) (p : ProcInfo)
    (t1 t2 : String) (c2 : Bool)
    (hmode : st.use_pty = false) (hp : st.process = some p)
    (hstdin : p.stdinPresent = true) (hopen : p.stdinClosed = false) :
    send_input st t1 true
      = { st with process := some { p with
            stdinWritten := p.stdinWritten ++ [t1 ++ "\n"], stdinClosed := true } }
    ∧ (send_input (send_input st t1 true) t2 c2).output_buffer
        = (send_input st t1 true).output_buffer ++ [pipe_send_error_msg]
    ∧ (send_input (send_input st t1 true) t2 c2).output_queue
        = (send_input st t1 true).output_queue ++ [pipe_send_error_msg] := by
  have hfirst : send_input st t1 true
      = { st with process := some { p with
            stdinWritten := p.stdinWritten ++ [t1 ++ "\n"], stdinClosed := true } } := by
    unfold send_input
    simp [hmode, hp, hstdin, hopen]
  refine ⟨hfirst, ?_, ?_⟩ <;>
    · rw [hfirst]
      unfold send_input
      simp [hmode, hstdin]

theorem pipe_close_then_graceful_witness :
    send_input pipeDemo "ping" true
      = { pipeDemo with
            process := some ⟨true, true, ["ping" ++ "\n"], true⟩ }
    ∧ (send_input (send_input pipeDemo "ping" true) "pong" false).output_buffer
        = (send_input pipeDemo "ping" true).output_buffer ++ [pipe_send_error_msg]
    ∧ (send_input (send_input pipeDemo "ping" true) "pong" false).output_queue
        = (send_input pipeDemo "ping" true).output_queue ++ [pipe_send_error_msg] :=
  pipe_close_then_graceful pipeDemo
    { stdinPresent := true, stdinClosed := false, stdinWritten := [], alive := true }
    "ping" "pong" false rfl rfl rfl rfl

/-- Claim C10: in pipe mode, send_input on a session whose process was
never started, or whose stdin handle is absent, does nothing at all: the
state, including both output buffers, is unchanged, and nothing is
raised. -/
theorem send_input_unstarted_noop (st : AgentState) (t : String) (c : Bool)
    (hmode : st.use_pty = false)
    (h : st.process = none ∨ ∃ p, st.process = some p ∧ p.stdinPresent = false) :
    send_input st t c = st := by
  unfold send_input
  rcases h with h | ⟨p, hp, hps⟩
  · simp [hmode, h]
  · simp [hmode, hp, hps]

theorem send_input_unstarted_noop_witness :
    send_input idleDemo "x" false = idleDemo :=
  send_input_unstarted_noop idleDemo "x" false rfl (Or.inl rfl)

theorem enqueue_output_queue (st : AgentState) (lf : Bool) (t : String) :
    (enqueue_output st lf t).output_queue = st.output_queue ++ [t] := by
  cases lf <;> simp [enqueue_output]

theorem foldl_enqueue_queue (ts : List String) :
    ∀ (st : AgentState) (lf : Bool),
      (ts.foldl (fun s t => enqueue_output s lf t) st).output_queue
        = st.output_queue ++ ts := by
  induction ts with
  | nil => intro st lf; simp
  | cons t ts ih =>
    intro st lf
    simp only [List.foldl_cons]
    rw [ih, enqueue_output_queue]
    simp

theorem reads_of_queue (q : List String) :
    ∀ st : AgentState, st.output_queue = q → reads st (q.length + 1) = q ++ [""] := by
  induction q with
  | nil =>
    intro st h
    simp [reads, read_output, h]
  | cons x q ih =>
    intro st h
    have h1 : read_output st = ({ st with output_queue := q }, x) := by
      cases st
      simp only at h
      simp [read_output, h]
    have h2 := ih { st with output_queue := q } rfl
    simp only [reads] at h2
    simp only [List.length_cons, reads, h1]
    rw [h2]
    simp

/-- Claim C2: chunks drain in enqueue order followed by the empty
sentinel: starting from an empty queue, after the reader enqueues the
chunks of ts in order, successive read_output calls return exactly the
chunks of ts in order and then the empty string; read_output is a total
function of the state, so it never blocks. -/
theorem drain_order_eq_enqueue_order (st : AgentState) (lf : Bool) (ts : List String)
    (hq : st.output_queue = []) :
    reads (ts.foldl (fun s t => enqueue_output s lf t) st) (ts.length + 1)
      = ts ++ [""] := by
  have hqueue : (ts.foldl (fun s t => enqueue_output s lf t) st).output_queue = ts := by
    rw [foldl_enqueue_queue, hq]
    simp
  simpa using reads_of_queue ts _ hqueue

theorem drain_order_eq_enqueue_order_witness :
    reads ((["a", "b", "c"]).foldl (fun s t => enqueue_output s false t) pipeDemo) (3 + 1)
      = ["a", "b", "c", ""] :=
  drain_order_eq_enqueue_order pipeDemo false ["a", "b", "c"] rfl

/-- Claim C7: stop is idempotent: a second stop changes nothing further,
raises nothing, and leaves the same terminal state, in which the master
descriptor field is cleared. -/
theorem stop_idempotent (st : AgentState) :
    stop (stop st) = stop st ∧ (stop st).master_fd = none := by
  rcases st with ⟨pty, mfd, mo, mw, proc, ob, oq, sl, r⟩
  cases proc <;> cases mfd <;> simp [stop]

/-- Claim C8: a side-log failure never affects primary output capture:
whatever the log write does, the chunk is appended to both the output
queue and the output buffer, and enqueue_output is total, so no
exception reaches the reader. -/
theorem enqueue_output_primary_unaffected (st : AgentState) (lf : Bool) (t : String) :
    (enqueue_output st lf t).output_queue = st.output_queue ++ [t] ∧
    (enqueue_output st lf t).output_buffer = st.output_buffer ++ [t] := by
  cases lf <;> simp [enqueue_output]

/-- Claim C5: appending two messages to the coordination file and reading
back its whole content yields the previous content followed by the two
messages, each in the exact newline-delimited bracket format, in append
order. -/
theorem chat_roundtrip (c : Option String) :
    MockAgent.read_chat
        (MockAgent.append_to_chat (MockAgent.append_to_chat c "X" "hello") "Y" "world")
      = MockAgent.read_chat c ++ "\n[X]: hello\n" ++ "\n[Y]: world\n" := by
  cases c <;> rfl

/-- Claim C6: the coordination file is truncated to empty exactly once at
session start, and every later core write appends, so the content at any
earlier point is a prefix of the content at any later point. -/
theorem chat_append_only (c : Option String) (ops : List ChatOp) :
    setup_workspace_chat = "" ∧
    ∃ s, MockAgent.read_chat (ops.foldl applyChatOp c) = MockAgent.read_chat c ++ s := by
  refine ⟨rfl, ?_⟩
  induction ops generalizing c with
  | nil => exact ⟨"", (String.append_empty _).symm⟩
  | cons op ops ih =>
    have hstep : ∃ s1, MockAgent.read_chat (applyChatOp c op)
        = MockAgent.read_chat c ++ s1 := by
      cases op with
      | user ts msg =>
        by_cases h : msg.trim = ""
        · refine ⟨"", ?_⟩
          simp [applyChatOp, send_user_message, h, String.append_empty]
        · refine ⟨"\n[User @ " ++ ts ++ "]: " ++ msg.trim ++ "\n", ?_⟩
          simp only [applyChatOp, send_user_message]
          rw [if_neg h]
          rfl
      | agentMsg n msg =>
        exact ⟨"\n[" ++ n ++ "]: " ++ msg ++ "\n", rfl⟩
    obtain ⟨s1, h1⟩ := hstep
    obtain ⟨s2, h2⟩ := ih (applyChatOp c op)
    refine ⟨s1 ++ s2, ?_⟩
    simp only [List.foldl_cons]
    rw [h2, h1, String.append_assoc]

end Orchestrator
